import Mathlib

/-!
Shallow embedding of the GDG Attendance System backend core
(`GDG-ATTENDENCE-PORTAL-BACKEND`): the attendance validator/recorder
(`controllers/attendanceController.js`), the meeting auto-activation
scheduler (`services/autoActivationService.js`), the QR token rotation
service (`services/qrRefreshService.js`), the uniqueness index of the
attendance store (`models/Attendance.js`), and the QR pause toggle of the
meetings controller.

Times are integers (milliseconds since epoch, mirroring JS `Date`
arithmetic); coordinates and distances are real numbers (the haversine
computation of the source); ids are natural numbers standing for Mongo
ObjectIds; fallible store operations return `Except`.
-/

namespace GDG

/-- Meeting `type` field: `'online' | 'offline'`. -/
inductive MeetingType where
  | online
  | offline
deriving DecidableEq

/-- Meeting `participation` field: `'anyone' | 'selected'`. -/
inductive Participation where
  | anyone
  | selected
deriving DecidableEq

/-- A latitude/longitude pair (`geofencing.center` and submitted coordinates). -/
structure GeoPoint where
  lat : ℝ
  lng : ℝ

/-- The `geofencing` subdocument of a meeting: enabled flag, fence center,
radius in meters (schema defaults: disabled, center (0,0), radius 200). -/
structure Geofence where
  enabled : Bool
  center : GeoPoint
  radius : ℝ

/-- A meeting document (`models/Meeting.js`).  `qrToken` is the `token`
field of the JSON stored in `qrData` (`none` when `qrData` is empty or
unparsable or has no token field), which is the only part of `qrData` the
validator reads.  `duration` is in minutes; `none` models an absent field
(the code applies `meeting.duration || 60`, which also treats a stored 0
as absent). -/
structure Meeting where
  mid : ℕ
  title : String
  mtype : MeetingType
  dateTime : ℤ
  duration : Option ℕ
  meetingLink : String
  qrCode : String
  qrToken : Option String
  attendanceToken : String
  isActive : Bool
  qrPaused : Bool
  participation : Participation
  participants : List ℕ
  geofencing : Geofence

/-- A user document: Mongo `_id` and the `firebaseUid` used for lookup. -/
structure User where
  uid : ℕ
  firebaseUid : String
deriving DecidableEq

/-- Attendance `method` field: `'qr' | 'link'`. -/
inductive Method where
  | qr
  | link
deriving DecidableEq

/-- Optional captured location on an attendance record. -/
structure Loc where
  lat : ℝ
  lng : ℝ
  accuracy : Option ℝ

/-- An attendance record (`models/Attendance.js`). -/
structure AttendanceRec where
  meeting : ℕ
  user : ℕ
  method : Method
  markedAt : ℤ
  location : Option Loc

/-- The shared store the controllers and services read and write. -/
structure Store where
  meetings : List Meeting
  users : List User
  attendance : List AttendanceRec

/-- Error taxonomy of the controllers' JSON error responses.  `outOfRange`
carries the computed haversine distance, which the source interpolates
(rounded) into the response message. -/
inductive ScanErr where
  | badRequest
  | notFound
  | expiredQR
  | tooEarly
  | meetingEnded
  | forbidden
  | locationRequired
  | outOfRange (distance : ℝ)

/-- Outcome of a mark-attendance request: an error response, or a success
response carrying the `alreadyAttended` indicator (`true` for the
idempotent 200 repeat, `false` for the fresh 201 insert). -/
inductive MarkResult where
  | err (e : ScanErr)
  | ok (alreadyAttended : Bool)

/-- `meeting.duration || 60` — minutes, with JS falsiness (absent or 0
both yield 60). -/
def durationMinutes (m : Meeting) : ℕ :=
  match m.duration with
  | none => 60
  | some d => if d = 0 then 60 else d

/-- Derived end of the meeting window:
`new Date(start.getTime() + (meeting.duration || 60) * 60000)`. -/
def endTime (m : Meeting) : ℤ :=
  m.dateTime + (durationMinutes m : ℤ) * 60000

/-- Whether the store holds a record for the (meeting, user) pair —
the `Attendance.findOne({ meeting, user })` duplicate pre-check. -/
def pairMem (db : List AttendanceRec) (mid uid : ℕ) : Bool :=
  db.any (fun r => r.meeting = mid && r.user = uid)

/-- `Attendance.create`, under the storage-level unique index
`attendanceSchema.index({ meeting: 1, user: 1 }, { unique: true })`:
the insert fails with the duplicate-key error (Mongo code 11000) exactly
when a record for the same (meeting, user) pair is already stored. -/
def attendanceCreate (db : List AttendanceRec) (r : AttendanceRec) :
    Except Unit (List AttendanceRec) :=
  if pairMem db r.meeting r.user then Except.error () else Except.ok (db ++ [r])

/-- The shared duplicate-check / insert / catch-11000 tail of both
controllers.  `pre` is the store snapshot against which the
`findOne` pre-check ran (equal to `db` when the request is alone, possibly
stale under concurrent submissions); `db` is the store at `create` time.
Returns the response's `alreadyAttended` flag and the new store. -/
def tryRecord (pre db : List AttendanceRec) (r : AttendanceRec) :
    Bool × List AttendanceRec :=
  if pairMem pre r.meeting r.user then (true, db)
  else
    match attendanceCreate db r with
    | Except.ok db' => (false, db')
    | Except.error _ => (true, db)

/-- The guard `!token || token.trim() === ''` of both link-channel
handlers: the token is absent/empty or consists only of whitespace
(a string trims to empty exactly when every character is whitespace). -/
def isBlank (s : String) : Bool := s.data.all Char.isWhitespace

/-- Builds the optional `location` subdocument of a new record:
present exactly when both `lat` and `lng` are non-null. -/
def mkLoc : Option ℝ → Option ℝ → Option ℝ → Option Loc
  | some la, some ln, acc => some ⟨la, ln, acc⟩
  | _, _, _ => none

/-- The tail of `markAttendance` once the meeting is resolved: channel
check, temporal window, user lookup, eligibility, duplicate check and
commit. -/
def markAfterResolve (s : Store) (now : ℤ) (m : Meeting) (fuid : String)
    (lat lng accuracy : Option ℝ) : MarkResult × Store :=
  if m.mtype ≠ MeetingType.online then (MarkResult.err ScanErr.badRequest, s)
  else if now < m.dateTime then (MarkResult.err ScanErr.tooEarly, s)
  else if endTime m ≤ now then (MarkResult.err ScanErr.meetingEnded, s)
  else
    match s.users.find? (fun u => u.firebaseUid = fuid) with
    | none => (MarkResult.err ScanErr.forbidden, s)
    | some u =>
      if m.participation = Participation.selected ∧ u.uid ∉ m.participants then
        (MarkResult.err ScanErr.forbidden, s)
      else
        let r : AttendanceRec :=
          ⟨m.mid, u.uid, Method.link, now, mkLoc lat lng accuracy⟩
        let out := tryRecord s.attendance s.attendance r
        (MarkResult.ok out.1, { s with attendance := out.2 })

/-- `POST /api/attendance/:token/mark` (`markAttendance`): the link-channel
validator.  Returns the response outcome and the (possibly updated) store. -/
def markAttendance (s : Store) (now : ℤ) (token : String) (fuid : String)
    (lat lng accuracy : Option ℝ) : MarkResult × Store :=
  if isBlank token then (MarkResult.err ScanErr.badRequest, s)
  else
    match s.meetings.find? (fun m => m.attendanceToken = token) with
    | none => (MarkResult.err ScanErr.notFound, s)
    | some m => markAfterResolve s now m fuid lat lng accuracy

/-- `(deg * Math.PI) / 180`. -/
noncomputable def toRad (deg : ℝ) : ℝ := deg * Real.pi / 180

/-- JS `Math.atan2` on real (non-NaN) arguments. -/
noncomputable def atan2 (y x : ℝ) : ℝ :=
  if 0 < x then Real.arctan (y / x)
  else if x < 0 then
    (if 0 ≤ y then Real.arctan (y / x) + Real.pi else Real.arctan (y / x) - Real.pi)
  else
    (if 0 < y then Real.pi / 2 else if y < 0 then -(Real.pi / 2) else 0)

/-- The inline haversine computation of `scanQRAttendance`
(Earth radius 6,371,000 m), from fence center `(clat, clng)` to the
submitted coordinate `(lat, lng)`. -/
noncomputable def haversineDistance (clat clng lat lng : ℝ) : ℝ :=
  let dLat := toRad (lat - clat)
  let dLng := toRad (lng - clng)
  let a := Real.sin (dLat / 2) ^ 2 +
    Real.cos (toRad clat) * Real.cos (toRad lat) * Real.sin (dLng / 2) ^ 2
  6371000 * 2 * atan2 (Real.sqrt a) (Real.sqrt (1 - a))

open Classical in
/-- The geofence block of `scanQRAttendance`: skipped unless
`meeting.geofencing?.enabled`; requires a location; compares the haversine
distance strictly against the radius.  Returns the error to respond with,
or `none` when the check passes. -/
noncomputable def geofenceCheck (g : Geofence) (lat lng : Option ℝ) :
    Option ScanErr :=
  if g.enabled then
    match lat, lng with
    | some la, some ln =>
      let distance := haversineDistance g.center.lat g.center.lng la ln
      if g.radius < distance then some (ScanErr.outOfRange distance) else none
    | _, _ => some ScanErr.locationRequired
  else none

/-- Outcome space of the QR payload decoding prologue of `scanQRAttendance`
(`req.body.qrData` followed by `JSON.parse`): the body field can be absent,
fail to parse, or parse to an object whose `meetingId` / `token` fields may
each be missing (or, for `token`, the falsy empty string). -/
inductive QRInput where
  | missing
  | malformed
  | fields (meetingId : Option ℕ) (token : Option String)

/-- The tail of `scanQRAttendance` once the meeting is resolved: token
freshness, channel check, temporal window, user lookup, eligibility,
geofence, duplicate check and commit. -/
noncomputable def scanAfterResolve (s : Store) (now : ℤ) (m : Meeting)
    (tok fuid : String) (lat lng accuracy : Option ℝ) : MarkResult × Store :=
  if m.qrToken ≠ some tok then (MarkResult.err ScanErr.expiredQR, s)
  else if m.mtype ≠ MeetingType.offline then
    (MarkResult.err ScanErr.badRequest, s)
  else if now < m.dateTime then (MarkResult.err ScanErr.tooEarly, s)
  else if endTime m ≤ now then (MarkResult.err ScanErr.meetingEnded, s)
  else
    match s.users.find? (fun u => u.firebaseUid = fuid) with
    | none => (MarkResult.err ScanErr.forbidden, s)
    | some u =>
      if m.participation = Participation.selected ∧ u.uid ∉ m.participants then
        (MarkResult.err ScanErr.forbidden, s)
      else
        match geofenceCheck m.geofencing lat lng with
        | some e => (MarkResult.err e, s)
        | none =>
          let r : AttendanceRec :=
            ⟨m.mid, u.uid, Method.qr, now, mkLoc lat lng accuracy⟩
          let out := tryRecord s.attendance s.attendance r
          (MarkResult.ok out.1, { s with attendance := out.2 })

/-- `POST /api/attendance/scan-qr` (`scanQRAttendance`): the token-channel
validator.  Returns the response outcome and the (possibly updated) store. -/
noncomputable def scanQRAttendance (s : Store) (now : ℤ) (input : QRInput)
    (fuid : String) (lat lng accuracy : Option ℝ) : MarkResult × Store :=
  match input with
  | QRInput.missing => (MarkResult.err ScanErr.badRequest, s)
  | QRInput.malformed => (MarkResult.err ScanErr.badRequest, s)
  | QRInput.fields mid? tok? =>
    match mid?, tok? with
    | none, _ => (MarkResult.err ScanErr.badRequest, s)
    | some _, none => (MarkResult.err ScanErr.badRequest, s)
    | some mid, some tok =>
      if tok = "" then (MarkResult.err ScanErr.badRequest, s)
      else
        match s.meetings.find? (fun m => m.mid = mid) with
        | none => (MarkResult.err ScanErr.notFound, s)
        | some m => scanAfterResolve s now m tok fuid lat lng accuracy

/-- The rotation service's module state together with the meeting store:
`lastRefreshedAt` is the shared "last rotated at" instant
(`let lastRefreshedAt = null` in `qrRefreshService.js`). -/
structure ServerState where
  meetings : List Meeting
  lastRefreshedAt : Option ℤ

/-- `getSecondsUntilNextRefresh()`:
0 when no rotation has ever completed; otherwise
`Math.max(0, Math.ceil(QR_REFRESH_INTERVAL - (now - lastRefreshedAt)/1000))`
with `QR_REFRESH_INTERVAL = 20`. -/
def getSecondsUntilNextRefresh (last : Option ℤ) (now : ℤ) : ℤ :=
  match last with
  | none => 0
  | some t => max 0 ⌈(20 : ℚ) - ((now : ℚ) - (t : ℚ)) / 1000⌉

/-- The selection filter of `refreshQRCodes`:
`{ qrCode: { $exists: true, $ne: '' }, qrPaused: { $ne: true } }`. -/
def rotEligible (m : Meeting) : Bool :=
  m.qrCode ≠ "" && !m.qrPaused

/-- Oracle for the random token and data-URL generation
(`crypto.randomBytes(16).toString('hex')` and `QRCode.toDataURL`),
indexed by meeting id. -/
structure RotGen where
  tok : ℕ → String
  url : ℕ → String

/-- The per-meeting update of `refreshQRCodes`: a fresh token bound into a
new `qrData` payload, and a regenerated QR image. -/
def rotated (g : RotGen) (m : Meeting) : Meeting :=
  { m with qrCode := g.url m.mid, qrToken := some (g.tok m.mid) }

/-- One tick of `refreshQRCodes` on the happy path (no per-item failure):
rotate every eligible meeting and record the shared instant —
the timestamp is always updated, even when no meeting is eligible. -/
def refreshQRCodes (g : RotGen) (now : ℤ) (st : ServerState) : ServerState :=
  { meetings := st.meetings.map (fun m => if rotEligible m then rotated g m else m),
    lastRefreshedAt := some now }

/-- `Meeting.findByIdAndUpdate`: replace the document with the matching id. -/
def applyUpdate (ms : List Meeting) (m' : Meeting) : List Meeting :=
  ms.map (fun x => if x.mid = m'.mid then m' else x)

/-- One tick of `refreshQRCodes` with per-item failures: `bad` says which
meetings' updates throw.  Each item's `try/catch` absorbs its own failure
(the store keeps that meeting's old document) and the loop continues with
the remaining items; the tick itself returns normally. -/
def refreshQRCodesExc (g : RotGen) (bad : ℕ → Bool) (now : ℤ)
    (st : ServerState) : ServerState :=
  { meetings :=
      (st.meetings.filter rotEligible).foldl
        (fun ms m => if bad m.mid then ms else applyUpdate ms (rotated g m))
        st.meetings,
    lastRefreshedAt := some now }

/-- Oracle for the scheduler's random credential generation. -/
structure ActGen where
  attToken : ℕ → String
  qrTok : ℕ → String
  qrUrl : ℕ → String

/-- Phase-1 guard of `checkAndUpdateMeetings`: selected by the query
(`isActive: false, dateTime: { $lte: now }`) and inside its window
(`now < endTime`). -/
def shouldActivate (now : ℤ) (m : Meeting) : Bool :=
  !m.isActive && decide (m.dateTime ≤ now) && decide (now < endTime m)

/-- The phase-1 update for one meeting: set the active flag, and issue a
proof channel if missing (attendance token for online meetings, QR
code/data for offline ones). -/
def activated (g : ActGen) (m : Meeting) : Meeting :=
  let m1 := { m with isActive := true }
  match m.mtype with
  | MeetingType.online =>
    if m.attendanceToken = "" then { m1 with attendanceToken := g.attToken m.mid }
    else m1
  | MeetingType.offline =>
    if m.qrCode = "" then
      { m1 with qrCode := g.qrUrl m.mid, qrToken := some (g.qrTok m.mid) }
    else m1

/-- Phase-2 guard: currently active and past its derived end. -/
def shouldDeactivate (now : ℤ) (m : Meeting) : Bool :=
  m.isActive && decide (endTime m ≤ now)

/-- The phase-2 update: clear the active flag and all proof state. -/
def deactivated (m : Meeting) : Meeting :=
  { m with
    isActive := false
    qrCode := ""
    qrToken := none
    qrPaused := false
    attendanceToken := "" }

/-- The effect of one `checkAndUpdateMeetings` tick on one meeting:
phase 1 (activation) against the pre-tick document, then phase 2
(deactivation) against the phase-1 result, as the second query re-reads
the store after phase 1. -/
def tickStep (g : ActGen) (now : ℤ) (m : Meeting) : Meeting :=
  let m1 := if shouldActivate now m then activated g m else m
  if shouldDeactivate now m1 then deactivated m1 else m1

/-- One `checkAndUpdateMeetings` tick on the whole store (happy path). -/
def checkAndUpdateMeetings (g : ActGen) (now : ℤ) (ms : List Meeting) :
    List Meeting :=
  ms.map (tickStep g now)

/-- The phase-1 `for` loop of `checkAndUpdateMeetings` with fallible
writes: `todo` is the query's snapshot, `bad` says which meetings' writes
throw.  The loop body has no per-item handler, so the first failure aborts
the loop (returned flag `true`); earlier writes stay applied. -/
def activateLoopExc (g : ActGen) (now : ℤ) (bad : ℕ → Bool)
    (ms : List Meeting) (todo : List Meeting) : List Meeting × Bool :=
  match todo with
  | [] => (ms, false)
  | m :: rest =>
    if decide (now < endTime m) then
      if bad m.mid then (ms, true)
      else activateLoopExc g now bad (applyUpdate ms (activated g m)) rest
    else activateLoopExc g now bad ms rest

/-- The phase-2 `for` loop with fallible writes, same abort structure. -/
def deactivateLoopExc (now : ℤ) (bad : ℕ → Bool)
    (ms : List Meeting) (todo : List Meeting) : List Meeting × Bool :=
  match todo with
  | [] => (ms, false)
  | m :: rest =>
    if decide (endTime m ≤ now) then
      if bad m.mid then (ms, true)
      else deactivateLoopExc now bad (applyUpdate ms (deactivated m)) rest
    else deactivateLoopExc now bad ms rest

/-- One `checkAndUpdateMeetings` tick with fallible writes.  The single
tick-wide `try/catch` absorbs whatever error aborted a loop, so the tick
always returns a store to its caller — but an abort in phase 1 skips the
rest of phase 1 and all of phase 2. -/
def checkAndUpdateMeetingsExc (g : ActGen) (now : ℤ) (bad : ℕ → Bool)
    (ms : List Meeting) : List Meeting :=
  let p1 := activateLoopExc g now bad ms
    (ms.filter (fun m => !m.isActive && decide (m.dateTime ≤ now)))
  if p1.2 then p1.1
  else
    let p2 := deactivateLoopExc now bad p1.1 (p1.1.filter (fun m => m.isActive))
    p2.1

/-- `PATCH /api/meetings/:id/qr-pause` (`toggleQRPause`): flip the
`qrPaused` flag of the addressed meeting and save it.  Returns the new
state and the responded flag (`none` for the 404 case). -/
def toggleQRPause (st : ServerState) (mid : ℕ) : ServerState × Option Bool :=
  match st.meetings.find? (fun m => m.mid = mid) with
  | none => (st, none)
  | some m =>
    ({ meetings :=
        st.meetings.map (fun x => if x.mid = mid then { x with qrPaused := !x.qrPaused } else x),
       lastRefreshedAt := st.lastRefreshedAt },
     some (!m.qrPaused))

/-- Number of stored records for a (meeting, user) pair. -/
def countPair (db : List AttendanceRec) (mid uid : ℕ) : ℕ :=
  (db.filter (fun r => r.meeting = mid && r.user = uid)).length

/-- The storage invariant of the unique index: no two records share a
(meeting, user) pair. -/
def UniquePairs (db : List AttendanceRec) : Prop :=
  List.Pairwise (fun a b => ¬(a.meeting = b.meeting ∧ a.user = b.user)) db

/-- A serialized run of concurrent submissions of the same record `r`:
each submission carries the snapshot `pre` its duplicate pre-check read
(possibly stale), while its insert runs against the current store.
Returns each submission's `alreadyAttended` flag and the final store. -/
def runRace (r : AttendanceRec) (db : List AttendanceRec) :
    List (List AttendanceRec) → List Bool × List AttendanceRec
  | [] => ([], db)
  | pre :: rest =>
    let step := tryRecord pre db r
    let tail := runRace r step.2 rest
    (step.1 :: tail.1, tail.2)

/-- Causal validity of the snapshots in a race: a snapshot read in the past
can only contain the pair if the current store does (records are never
deleted, so stores grow monotonically on this pair). -/
def Causal (r : AttendanceRec) : List AttendanceRec → List (List AttendanceRec) → Prop
  | _, [] => True
  | db, pre :: rest =>
    (pairMem pre r.meeting r.user = true → pairMem db r.meeting r.user = true) ∧
      Causal r (tryRecord pre db r).2 rest

/-! ## Helper lemmas -/

/-- A dormant meeting whose window already elapsed is untouched by one
scheduler tick. -/
lemma tickStep_past_end (g : ActGen) (now : ℤ) (m : Meeting)
    (hA : m.isActive = false) (hE : endTime m ≤ now) : tickStep g now m = m := by
  have h1 : shouldActivate now m = false := by
    simp [shouldActivate, not_lt.mpr hE]
  have h2 : shouldDeactivate now m = false := by
    simp [shouldDeactivate, hA]
  simp [tickStep, h1, h2]

/-- After payload decoding and event resolution, a submitted token that is
not exactly the stored one is rejected with `ExpiredQR`, whatever else
holds of the meeting. -/
lemma scan_mismatch (s : Store) (now : ℤ) (mid : ℕ) (tok fuid : String)
    (lat lng acc : Option ℝ) (m : Meeting)
    (hTok : tok ≠ "")
    (hFind : s.meetings.find? (fun x => x.mid = mid) = some m)
    (hNe : m.qrToken ≠ some tok) :
    scanQRAttendance s now (QRInput.fields (some mid) (some tok)) fuid lat lng acc
      = (MarkResult.err ScanErr.expiredQR, s) := by
  simp [scanQRAttendance, scanAfterResolve, hFind, hTok, hNe]

/-- After payload decoding and event resolution, a matching token against
a non-offline meeting falls through the freshness check and is rejected by
the channel-type check with `BadRequest`. -/
lemma scan_match_wrongtype (s : Store) (now : ℤ) (mid : ℕ) (tok fuid : String)
    (lat lng acc : Option ℝ) (m : Meeting)
    (hTok : tok ≠ "")
    (hFind : s.meetings.find? (fun x => x.mid = mid) = some m)
    (hEq : m.qrToken = some tok)
    (hTy : m.mtype ≠ MeetingType.offline) :
    scanQRAttendance s now (QRInput.fields (some mid) (some tok)) fuid lat lng acc
      = (MarkResult.err ScanErr.badRequest, s) := by
  simp [scanQRAttendance, scanAfterResolve, hFind, hTok, hEq, hTy]

/-- With a schema-valid stored duration (present and nonzero), the derived
end is start plus duration minutes. -/
lemma endTime_eq (m : Meeting) (d : ℕ) (hd : m.duration = some d) (h0 : d ≠ 0) :
    endTime m = m.dateTime + (d : ℤ) * 60000 := by
  simp [endTime, durationMinutes, hd, h0]

/-- The geofence block can only produce its two own errors. -/
lemma geofenceCheck_errors (g : Geofence) (lat lng : Option ℝ) (e : ScanErr)
    (h : geofenceCheck g lat lng = some e) :
    e = ScanErr.locationRequired ∨
      ∃ dist : ℝ, e = ScanErr.outOfRange dist := by
  by_cases hg : g.enabled
  · rcases lat with _ | la <;> rcases lng with _ | ln <;>
      simp [geofenceCheck, hg] at h <;>
      first
      | exact Or.inl h.symm
      | exact Or.inr ⟨_, h.2.symm⟩
  · simp [geofenceCheck, hg] at h

/-- Once every check before the geofence block passes, the QR validator's
outcome is decided by `geofenceCheck` and, when that passes, by the
duplicate-check/commit tail. -/
lemma scan_to_geofence (s : Store) (now : ℤ) (mid : ℕ) (tok fuid : String)
    (lat lng acc : Option ℝ) (m : Meeting) (u : User)
    (hTok : tok ≠ "")
    (hFind : s.meetings.find? (fun x => x.mid = mid) = some m)
    (hFresh : m.qrToken = some tok)
    (hTy : m.mtype = MeetingType.offline)
    (hT1 : ¬ now < m.dateTime)
    (hT2 : ¬ endTime m ≤ now)
    (hU : s.users.find? (fun x => x.firebaseUid = fuid) = some u)
    (hP : ¬(m.participation = Participation.selected ∧ u.uid ∉ m.participants)) :
    scanQRAttendance s now (QRInput.fields (some mid) (some tok)) fuid lat lng acc
      = match geofenceCheck m.geofencing lat lng with
        | some e => (MarkResult.err e, s)
        | none =>
          (MarkResult.ok
            (tryRecord s.attendance s.attendance
              ⟨m.mid, u.uid, Method.qr, now, mkLoc lat lng acc⟩).1,
           { s with attendance :=
              (tryRecord s.attendance s.attendance
                ⟨m.mid, u.uid, Method.qr, now, mkLoc lat lng acc⟩).2 }) := by
  simp only [scanQRAttendance]
  rw [if_neg hTok, hFind]
  simp only [scanAfterResolve, hFresh, hTy, if_neg hT1, if_neg hT2]
  norm_num
  simp only [hU]
  rw [if_neg hP]

/-- The per-meeting rotation step preserves the meeting id. -/
lemma rotStep_mid (g : RotGen) (x : Meeting) :
    (if rotEligible x then rotated g x else x).mid = x.mid := by
  cases h : rotEligible x <;> simp [rotated]

/-- A store without the pair makes `pairMem` false. -/
lemma pairMem_eq_false_of_countPair_zero (db : List AttendanceRec) (mid uid : ℕ)
    (h : countPair db mid uid = 0) : pairMem db mid uid = false := by
  rw [countPair, List.length_eq_zero, List.filter_eq_nil_iff] at h
  rw [pairMem]
  rw [List.any_eq_false]
  intro r hr
  exact h r hr

/-- Appending the record makes `pairMem` true for its own pair. -/
lemma pairMem_append_self (db : List AttendanceRec) (r : AttendanceRec) :
    pairMem (db ++ [r]) r.meeting r.user = true := by
  simp [pairMem]

/-- Appending the record raises its own pair's count by one. -/
lemma countPair_append_self (db : List AttendanceRec) (r : AttendanceRec) :
    countPair (db ++ [r]) r.meeting r.user = countPair db r.meeting r.user + 1 := by
  simp [countPair, List.filter_append]

/-- A submission whose pre-check snapshot and insert-time store both lack
the pair inserts the record and reports a fresh success. -/
lemma tryRecord_fresh (pre db : List AttendanceRec) (r : AttendanceRec)
    (hpre : pairMem pre r.meeting r.user = false)
    (hdb : pairMem db r.meeting r.user = false) :
    tryRecord pre db r = (false, db ++ [r]) := by
  simp [tryRecord, attendanceCreate, hpre, hdb]

/-- Once the store holds the pair, every further submission — whether its
stale pre-check caught it or the unique index rejected the insert —
reports an idempotent success and leaves the store unchanged. -/
lemma tryRecord_dup (pre db : List AttendanceRec) (r : AttendanceRec)
    (hdb : pairMem db r.meeting r.user = true) :
    (tryRecord pre db r).1 = true ∧ (tryRecord pre db r).2 = db := by
  by_cases hpre : pairMem pre r.meeting r.user <;>
    simp [tryRecord, attendanceCreate, hpre, hdb]

/-- Once the store holds the pair, a whole race of further submissions
returns all-true flags and never changes the store. -/
lemma runRace_after (r : AttendanceRec) (db : List AttendanceRec)
    (pres : List (List AttendanceRec))
    (hdb : pairMem db r.meeting r.user = true) :
    runRace r db pres = (List.replicate pres.length true, db) := by
  induction pres with
  | nil => rfl
  | cons pre rest ih =>
    obtain ⟨h1, h2⟩ := tryRecord_dup pre db r hdb
    simp [runRace, h1, h2, ih, List.replicate_succ]

/-- The duplicate-check/commit tail either reports an idempotent repeat
and keeps the store, or inserts exactly the one new record. -/
lemma tryRecord_cases (pre db : List AttendanceRec) (r : AttendanceRec) :
    tryRecord pre db r = (true, db) ∨ tryRecord pre db r = (false, db ++ [r]) := by
  by_cases hpre : pairMem pre r.meeting r.user
  · left
    simp [tryRecord, hpre]
  · by_cases hdb : pairMem db r.meeting r.user
    · left
      simp [tryRecord, attendanceCreate, hpre, hdb]
    · right
      simp [tryRecord, attendanceCreate, hpre, hdb]

/-- Every run of the link validator's post-resolution tail ends in one of
three shapes: an error with the store untouched, an idempotent success
with the store untouched, or a fresh success appending one record. -/
lemma markAfterResolve_outcomes (s : Store) (now : ℤ) (m : Meeting)
    (fuid : String) (lat lng acc : Option ℝ) :
    (∃ e, markAfterResolve s now m fuid lat lng acc = (MarkResult.err e, s)) ∨
    markAfterResolve s now m fuid lat lng acc = (MarkResult.ok true, s) ∨
    (∃ rec, markAfterResolve s now m fuid lat lng acc
        = (MarkResult.ok false, { s with attendance := s.attendance ++ [rec] })) := by
  unfold markAfterResolve
  split
  · exact Or.inl ⟨_, rfl⟩
  split
  · exact Or.inl ⟨_, rfl⟩
  split
  · exact Or.inl ⟨_, rfl⟩
  split
  · exact Or.inl ⟨_, rfl⟩
  next u heq =>
    split
    · exact Or.inl ⟨_, rfl⟩
    · dsimp only
      rcases tryRecord_cases s.attendance s.attendance
        ⟨m.mid, u.uid, Method.link, now, mkLoc lat lng acc⟩ with h | h
      · rw [h]
        exact Or.inr (Or.inl rfl)
      · rw [h]
        exact Or.inr (Or.inr ⟨_, rfl⟩)

/-- Every run of the QR validator's post-resolution tail ends in one of
the same three shapes. -/
lemma scanAfterResolve_outcomes (s : Store) (now : ℤ) (m : Meeting)
    (tok fuid : String) (lat lng acc : Option ℝ) :
    (∃ e, scanAfterResolve s now m tok fuid lat lng acc = (MarkResult.err e, s)) ∨
    scanAfterResolve s now m tok fuid lat lng acc = (MarkResult.ok true, s) ∨
    (∃ rec, scanAfterResolve s now m tok fuid lat lng acc
        = (MarkResult.ok false, { s with attendance := s.attendance ++ [rec] })) := by
  unfold scanAfterResolve
  split
  · exact Or.inl ⟨_, rfl⟩
  split
  · exact Or.inl ⟨_, rfl⟩
  split
  · exact Or.inl ⟨_, rfl⟩
  split
  · exact Or.inl ⟨_, rfl⟩
  split
  · exact Or.inl ⟨_, rfl⟩
  next u heq =>
    split
    · exact Or.inl ⟨_, rfl⟩
    · split
      · exact Or.inl ⟨_, rfl⟩
      · dsimp only
        rcases tryRecord_cases s.attendance s.attendance
          ⟨m.mid, u.uid, Method.qr, now, mkLoc lat lng acc⟩ with h | h
        · rw [h]
          exact Or.inr (Or.inl rfl)
        · rw [h]
          exact Or.inr (Or.inr ⟨_, rfl⟩)

/-- Rotation preserves the meeting id. -/
lemma rotated_mid (g : RotGen) (m : Meeting) : (rotated g m).mid = m.mid := rfl

/-- Pointwise form of the rotation tick's sequential fold: the updates a
single stored document `x` receives while the loop walks `todo`. -/
def applyAllRot (g : RotGen) (bad : ℕ → Bool) (todo : List Meeting)
    (x : Meeting) : Meeting :=
  todo.foldl
    (fun y m => if bad m.mid then y else (if y.mid = m.mid then rotated g m else y)) x

/-- The rotation fold over the whole store is the pointwise fold mapped
over the store. -/
lemma rotFold_eq_map (g : RotGen) (bad : ℕ → Bool) :
    ∀ (todo ms : List Meeting),
      todo.foldl
        (fun ms m => if bad m.mid then ms else applyUpdate ms (rotated g m)) ms
        = ms.map (applyAllRot g bad todo) := by
  intro todo
  induction todo with
  | nil =>
    intro ms
    rw [List.foldl_nil]
    have h : ∀ x ∈ ms, id x = applyAllRot g bad [] x := fun x _ => rfl
    exact (List.map_id ms).symm.trans (List.map_congr_left h)
  | cons t ts ih =>
    intro ms
    rw [List.foldl_cons]
    by_cases hbad : bad t.mid = true
    · rw [if_pos hbad, ih ms]
      apply List.map_congr_left
      intro x _
      conv_rhs => rw [applyAllRot, List.foldl_cons, if_pos hbad]
      rfl
    · rw [if_neg hbad, ih (applyUpdate ms (rotated g t))]
      rw [applyUpdate, List.map_map]
      apply List.map_congr_left
      intro x _
      conv_rhs => rw [applyAllRot, List.foldl_cons, if_neg hbad]
      rfl

/-- A document whose id occurs nowhere in the work list is never touched
by the pointwise fold. -/
lemma applyAllRot_skip (g : RotGen) (bad : ℕ → Bool) :
    ∀ (todo : List Meeting) (y : Meeting),
      (∀ t ∈ todo, t.mid ≠ y.mid) → applyAllRot g bad todo y = y := by
  intro todo
  induction todo with
  | nil => intro y _; rfl
  | cons t ts ih =>
    intro y h
    have ht : t.mid ≠ y.mid := h t (List.mem_cons_self t ts)
    rw [applyAllRot, List.foldl_cons]
    by_cases hbad : bad t.mid = true
    · rw [if_pos hbad]
      exact ih y (fun u hu => h u (List.mem_cons_of_mem t hu))
    · rw [if_neg hbad, if_neg (fun hh => ht hh.symm)]
      exact ih y (fun u hu => h u (List.mem_cons_of_mem t hu))

/-- A document in the work list (ids there unique) ends up rotated exactly
when its own write does not fail — other items' failures are invisible to
it. -/
lemma applyAllRot_mem (g : RotGen) (bad : ℕ → Bool) :
    ∀ (todo : List Meeting) (x : Meeting),
      x ∈ todo → (todo.map Meeting.mid).Nodup →
      applyAllRot g bad todo x
        = (if bad x.mid then x else rotated g x) := by
  intro todo
  induction todo with
  | nil => intro x hx; exact absurd hx (List.not_mem_nil x)
  | cons t ts ih =>
    intro x hx hnd
    rw [List.map_cons, List.nodup_cons] at hnd
    rcases List.mem_cons.mp hx with hxt | hxs
    · subst hxt
      have hrest : ∀ u ∈ ts, u.mid ≠ x.mid := by
        intro u hu he
        exact hnd.1 (he ▸ List.mem_map_of_mem Meeting.mid hu)
      rw [applyAllRot, List.foldl_cons]
      by_cases hbad : bad x.mid = true
      · rw [if_pos hbad, if_pos hbad]
        exact applyAllRot_skip g bad ts x hrest
      · rw [if_neg hbad, if_neg hbad, if_pos rfl]
        exact applyAllRot_skip g bad ts (rotated g x) hrest
    · have ht : t.mid ≠ x.mid := by
        intro he
        exact hnd.1 (he ▸ List.mem_map_of_mem Meeting.mid hxs)
      rw [applyAllRot, List.foldl_cons]
      by_cases hbad : bad t.mid = true
      · rw [if_pos hbad]
        exact ih x hxs hnd.2
      · rw [if_neg hbad, if_neg (fun hh => ht hh.symm)]
        exact ih x hxs hnd.2

/-- The phase-1 activation loop aborts at its first failing write: the
writes before it are applied, the failing item and everything after it in
the same tick's work list are skipped, and the abort flag reaches the
tick-level handler. -/
lemma activateLoopExc_abort (g : ActGen) (now : ℤ) (bad : ℕ → Bool) :
    ∀ (pre ms : List Meeting) (m : Meeting) (rest : List Meeting),
      (∀ x ∈ pre, bad x.mid = false) →
      bad m.mid = true → now < endTime m →
      activateLoopExc g now bad ms (pre ++ m :: rest)
        = ((activateLoopExc g now bad ms pre).1, true) := by
  intro pre
  induction pre with
  | nil =>
    intro ms m rest _ hbad hnow
    rw [List.nil_append]
    simp only [activateLoopExc]
    rw [decide_eq_true hnow, if_pos rfl, hbad, if_pos rfl]
  | cons p ps ih =>
    intro ms m rest hgood hbad hnow
    have hp : bad p.mid = false := hgood p (List.mem_cons_self p ps)
    have hgood' : ∀ x ∈ ps, bad x.mid = false :=
      fun x hx => hgood x (List.mem_cons_of_mem p hx)
    rw [List.cons_append]
    simp only [activateLoopExc]
    by_cases hw : now < endTime p
    · rw [decide_eq_true hw, if_pos rfl, if_pos rfl, hp,
        if_neg Bool.false_ne_true, if_neg Bool.false_ne_true]
      exact ih (applyUpdate ms (activated g p)) m rest hgood' hbad hnow
    · rw [decide_eq_false hw, if_neg Bool.false_ne_true, if_neg Bool.false_ne_true]
      exact ih ms m rest hgood' hbad hnow

/-- Concrete fixture: dormant offline meeting 11, in window at time 0. -/
def meetingC7a : Meeting :=
  ⟨11, "a", MeetingType.offline, 0, some 60, "", "", none, "",
   false, false, Participation.anyone, [], ⟨false, ⟨0, 0⟩, 200⟩⟩

/-- Concrete fixture: dormant offline meeting 12, in window at time 0. -/
def meetingC7b : Meeting :=
  ⟨12, "b", MeetingType.offline, 0, some 60, "", "", none, "",
   false, false, Participation.anyone, [], ⟨false, ⟨0, 0⟩, 200⟩⟩

/-! ## Claim theorems -/

/-- C10: the seconds-until-next-rotation value is 0 when no rotation tick
has ever completed; otherwise (for a query at or after the recorded
instant) it is the ceiling of (20-second interval − elapsed seconds)
clamped below at 0, hence a whole number of seconds between 0 and 20
inclusive. -/
theorem getSecondsUntilNextRefresh_spec :
    (∀ now : ℤ, getSecondsUntilNextRefresh none now = 0) ∧
    (∀ t now : ℤ, t ≤ now →
      getSecondsUntilNextRefresh (some t) now =
        max 0 ⌈(20 : ℚ) - ((now : ℚ) - (t : ℚ)) / 1000⌉ ∧
      0 ≤ getSecondsUntilNextRefresh (some t) now ∧
      getSecondsUntilNextRefresh (some t) now ≤ 20) := by
  refine ⟨fun _ => rfl, fun t now h => ⟨rfl, le_max_left 0 _, ?_⟩⟩
  have he : (0 : ℚ) ≤ ((now : ℚ) - (t : ℚ)) / 1000 := by
    apply div_nonneg _ (by norm_num)
    have ht : (t : ℚ) ≤ (now : ℚ) := by exact_mod_cast h
    linarith
  have hc : (⌈(20 : ℚ) - ((now : ℚ) - (t : ℚ)) / 1000⌉ : ℤ) ≤ 20 := by
    apply Int.ceil_le.mpr
    push_cast
    linarith
  show max 0 ⌈(20 : ℚ) - ((now : ℚ) - (t : ℚ)) / 1000⌉ ≤ 20
  exact max_le (by norm_num) hc

/-- Witness for C10 at the concrete instant pair (0, 1000). -/
theorem getSecondsUntilNextRefresh_spec_witness :
    (0 : ℤ) ≤ 1000 ∧ getSecondsUntilNextRefresh (some 0) 1000 ≤ 20 :=
  ⟨by decide, (getSecondsUntilNextRefresh_spec.2 0 1000 (by decide)).2.2⟩

/-- C6: a scheduler tick at a time at or past a dormant meeting's derived
end leaves it dormant with all fields unchanged — on that tick, on any
sequence of later ticks, and elementwise on the whole store. -/
theorem scheduler_no_retroactive_activation :
    (∀ (g : ActGen) (now : ℤ) (m : Meeting),
      m.isActive = false → endTime m ≤ now → tickStep g now m = m) ∧
    (∀ (g : ActGen) (nows : List ℤ) (m : Meeting),
      m.isActive = false → (∀ t ∈ nows, endTime m ≤ t) →
      nows.foldl (fun acc t => tickStep g t acc) m = m) ∧
    (∀ (g : ActGen) (now : ℤ) (ms : List Meeting),
      (∀ m ∈ ms, m.isActive = false ∧ endTime m ≤ now) →
      checkAndUpdateMeetings g now ms = ms) := by
  refine ⟨fun g now m hA hE => tickStep_past_end g now m hA hE, ?_, ?_⟩
  · intro g nows
    induction nows with
    | nil => intro m _ _; rfl
    | cons t ts ih =>
      intro m hA hall
      have h1 : tickStep g t m = m :=
        tickStep_past_end g t m hA (hall t (List.mem_cons_self t ts))
      simp only [List.foldl_cons, h1]
      exact ih m hA (fun u hu => hall u (List.mem_cons_of_mem t hu))
  · intro g now ms hall
    unfold checkAndUpdateMeetings
    have : ∀ m ∈ ms, tickStep g now m = m := fun m hm =>
      tickStep_past_end g now m (hall m hm).1 (hall m hm).2
    calc ms.map (tickStep g now) = ms.map id := List.map_congr_left this
    _ = ms := List.map_id ms

/-- Concrete fixture: a dormant offline meeting scheduled at 0 for 60
minutes (window long elapsed at tick time 4000000). -/
def meetingC6 : Meeting :=
  ⟨1, "m", MeetingType.offline, 0, some 60, "", "", none, "",
   false, false, Participation.anyone, [], ⟨false, ⟨0, 0⟩, 200⟩⟩

/-- Concrete fixture: a credential-generation oracle. -/
def genC : ActGen := ⟨fun _ => "a", fun _ => "t", fun _ => "u"⟩

/-- Witness for C6: a tick at 4000000 (past the window end 3600000) leaves
the dormant fixture meeting unchanged, elementwise and on the store. -/
theorem scheduler_no_retroactive_activation_witness :
    tickStep genC 4000000 meetingC6 = meetingC6 ∧
    checkAndUpdateMeetings genC 4000000 [meetingC6] = [meetingC6] :=
  ⟨scheduler_no_retroactive_activation.1 genC 4000000 meetingC6 rfl (by decide),
   scheduler_no_retroactive_activation.2.2 genC 4000000 [meetingC6] (by
    intro m hm
    rw [List.mem_singleton] at hm
    subst hm
    exact ⟨rfl, by decide⟩)⟩

/-- C3: the QR validator accepts only the token currently stored in the
event's proof state: (a) any submitted token different from the stored one
— including the stored token being absent — fails with `ExpiredQR`, with
no grace window; (b) in particular, after a rotation tick replaces an
eligible event's token, the previously valid token is rejected with
`ExpiredQR`. -/
theorem scan_token_freshness :
    (∀ (s : Store) (now : ℤ) (mid : ℕ) (tok fuid : String)
       (lat lng acc : Option ℝ) (m : Meeting),
      tok ≠ "" →
      s.meetings.find? (fun x => x.mid = mid) = some m →
      m.qrToken ≠ some tok →
      scanQRAttendance s now (QRInput.fields (some mid) (some tok)) fuid lat lng acc
        = (MarkResult.err ScanErr.expiredQR, s)) ∧
    (∀ (g : RotGen) (rt : ℤ) (st : ServerState) (mid : ℕ) (m : Meeting)
       (tokOld fuid : String) (users : List User) (att : List AttendanceRec)
       (now : ℤ) (lat lng acc : Option ℝ),
      st.meetings.find? (fun x => x.mid = mid) = some m →
      rotEligible m = true →
      tokOld ≠ "" →
      g.tok m.mid ≠ tokOld →
      scanQRAttendance ⟨(refreshQRCodes g rt st).meetings, users, att⟩ now
          (QRInput.fields (some mid) (some tokOld)) fuid lat lng acc
        = (MarkResult.err ScanErr.expiredQR,
           ⟨(refreshQRCodes g rt st).meetings, users, att⟩)) := by
  constructor
  · exact fun s now mid tok fuid lat lng acc m hTok hFind hNe =>
      scan_mismatch s now mid tok fuid lat lng acc m hTok hFind hNe
  · intro g rt st mid m tokOld fuid users att now lat lng acc hFind hElig hTok hNe
    have hmap :
        (refreshQRCodes g rt st).meetings.find? (fun x => x.mid = mid)
          = some (rotated g m) := by
      show ((st.meetings.map fun x => if rotEligible x then rotated g x else x).find?
        (fun x => x.mid = mid)) = some (rotated g m)
      rw [List.find?_map]
      have hcomp :
          ((fun x : Meeting => decide (x.mid = mid)) ∘
            (fun x => if rotEligible x then rotated g x else x))
            = fun x : Meeting => decide (x.mid = mid) := by
        funext x
        simp [Function.comp, rotStep_mid]
      rw [hcomp, hFind]
      simp [hElig]
    apply scan_mismatch _ now mid tokOld fuid lat lng acc (rotated g m) hTok hmap
    intro h
    have : g.tok m.mid = tokOld := by
      simpa [rotated] using h
    exact hNe this

/-- Concrete fixture: an online (link-channel) meeting with no stored QR
token. -/
def meetingC5 : Meeting :=
  ⟨1, "m", MeetingType.online, 0, some 60, "https://meet", "", none, "L",
   true, false, Participation.anyone, [], ⟨false, ⟨0, 0⟩, 200⟩⟩

/-- Concrete fixture: store holding only the online meeting. -/
def sC5 : Store := ⟨[meetingC5], [], []⟩

/-- Concrete fixture: an offline meeting carrying an attendance token. -/
def meetingC5b : Meeting :=
  ⟨2, "m", MeetingType.offline, 0, some 60, "", "qr", some "tok", "L",
   true, false, Participation.anyone, [], ⟨false, ⟨0, 0⟩, 200⟩⟩

/-- Concrete fixture: store holding only the offline meeting. -/
def sC5b : Store := ⟨[meetingC5b], [], []⟩

/-- Counterexample to C5: a token (QR) submission against a link-channel
(online) event is answered with `ExpiredQR`, not `BadRequest` — the
freshness check runs before the channel-match check in
`scanQRAttendance`. -/
theorem scanQR_channel_order_counterexample :
    meetingC5.mtype = MeetingType.online ∧
    scanQRAttendance sC5 0 (QRInput.fields (some 1) (some "t")) "u" none none none
      = (MarkResult.err ScanErr.expiredQR, sC5) ∧
    MarkResult.err ScanErr.expiredQR ≠ MarkResult.err ScanErr.badRequest := by
  refine ⟨rfl, rfl, ?_⟩
  intro h
  injection h with h'
  exact ScanErr.noConfusion h'

/-- C5 amended: `markAttendance` checks the channel before anything
time- or token-related, so a link submission against a token-channel
(offline) event fails with `BadRequest`; `scanQRAttendance` checks token
freshness before the channel match, so a token submission against a
link-channel (online) event fails with `ExpiredQR` whenever the submitted
token differs from the event's stored token field, and with `BadRequest`
only when it happens to match. -/
theorem validator_channel_check_order :
    (∀ (s : Store) (now : ℤ) (token fuid : String) (lat lng acc : Option ℝ)
       (m : Meeting),
      isBlank token = false →
      s.meetings.find? (fun x => x.attendanceToken = token) = some m →
      m.mtype ≠ MeetingType.online →
      markAttendance s now token fuid lat lng acc
        = (MarkResult.err ScanErr.badRequest, s)) ∧
    (∀ (s : Store) (now : ℤ) (mid : ℕ) (tok fuid : String)
       (lat lng acc : Option ℝ) (m : Meeting),
      tok ≠ "" →
      s.meetings.find? (fun x => x.mid = mid) = some m →
      m.mtype ≠ MeetingType.offline →
      ((m.qrToken ≠ some tok →
        scanQRAttendance s now (QRInput.fields (some mid) (some tok)) fuid lat lng acc
          = (MarkResult.err ScanErr.expiredQR, s)) ∧
       (m.qrToken = some tok →
        scanQRAttendance s now (QRInput.fields (some mid) (some tok)) fuid lat lng acc
          = (MarkResult.err ScanErr.badRequest, s)))) := by
  constructor
  · intro s now token fuid lat lng acc m hTok hFind hTy
    simp [markAttendance, markAfterResolve, hFind, hTok, hTy]
  · intro s now mid tok fuid lat lng acc m hTok hFind hTy
    exact ⟨fun hNe => scan_mismatch s now mid tok fuid lat lng acc m hTok hFind hNe,
      fun hEq => scan_match_wrongtype s now mid tok fuid lat lng acc m hTok hFind hEq hTy⟩

/-- Witness for the amended C5 at concrete stores: the link direction
gets `BadRequest`, the token direction gets `ExpiredQR`. -/
theorem validator_channel_check_order_witness :
    markAttendance sC5b 0 "L" "u" none none none
      = (MarkResult.err ScanErr.badRequest, sC5b) ∧
    scanQRAttendance sC5 0 (QRInput.fields (some 1) (some "t")) "u" none none none
      = (MarkResult.err ScanErr.expiredQR, sC5) :=
  ⟨validator_channel_check_order.1 sC5b 0 "L" "u" none none none meetingC5b
      (by decide) rfl (by decide),
   (validator_channel_check_order.2 sC5 0 1 "t" "u" none none none meetingC5
      (by decide) rfl (by decide)).1 (by decide)⟩

/-- Witness for C3 at a concrete store: a stale token against the online
fixture's absent stored token, and a rotated store rejecting the
pre-rotation token. -/
theorem scan_token_freshness_witness :
    scanQRAttendance sC5 0 (QRInput.fields (some 1) (some "stale")) "u" none none none
      = (MarkResult.err ScanErr.expiredQR, sC5) ∧
    scanQRAttendance
        ⟨(refreshQRCodes ⟨fun _ => "new", fun _ => "url"⟩ 0 ⟨[meetingC5b], none⟩).meetings,
         [], []⟩ 0
        (QRInput.fields (some 2) (some "tok")) "u" none none none
      = (MarkResult.err ScanErr.expiredQR,
         ⟨(refreshQRCodes ⟨fun _ => "new", fun _ => "url"⟩ 0 ⟨[meetingC5b], none⟩).meetings,
          [], []⟩) :=
  ⟨scan_token_freshness.1 sC5 0 1 "stale" "u" none none none meetingC5
      (by decide) rfl (by decide),
   scan_token_freshness.2 ⟨fun _ => "new", fun _ => "url"⟩ 0 ⟨[meetingC5b], none⟩ 2
      meetingC5b "tok" "u" [] [] 0 none none none rfl (by decide) (by decide) (by decide)⟩

/-- C1: the storage-level unique index on (meeting, user) keeps the store
free of duplicate pairs, and under any serialized race of submissions for
one pair — each allowed a stale duplicate pre-check snapshot, so several
may pass the pre-check — exactly one record ends up stored, the first
submission reports a fresh success, and every later one reports success
with the already-recorded indicator. -/
theorem attendance_exactly_once :
    (∀ (db : List AttendanceRec) (r : AttendanceRec) (db' : List AttendanceRec),
      UniquePairs db → attendanceCreate db r = Except.ok db' → UniquePairs db') ∧
    (∀ (r : AttendanceRec) (db : List AttendanceRec)
       (pres : List (List AttendanceRec)),
      countPair db r.meeting r.user = 0 → Causal r db pres → pres ≠ [] →
      countPair (runRace r db pres).2 r.meeting r.user = 1 ∧
      (runRace r db pres).1 = false :: List.replicate (pres.length - 1) true) := by
  constructor
  · intro db r db' hU hOk
    rw [attendanceCreate] at hOk
    split at hOk
    · exact absurd hOk (by simp)
    · rename_i hmem
      rw [Except.ok.injEq] at hOk
      subst hOk
      rw [UniquePairs, List.pairwise_append]
      refine ⟨hU, List.pairwise_singleton _ _, ?_⟩
      intro a ha b hb hab
      rw [List.mem_singleton] at hb
      subst hb
      rw [pairMem, List.any_eq_true] at hmem
      exact hmem ⟨a, ha, by simp [hab.1, hab.2]⟩
  · intro r db pres h0 hc hne
    match pres with
    | [] => exact absurd rfl hne
    | pre :: rest =>
      obtain ⟨hcp, hcrest⟩ := hc
      have hdb : pairMem db r.meeting r.user = false :=
        pairMem_eq_false_of_countPair_zero db r.meeting r.user h0
      have hpre : pairMem pre r.meeting r.user = false := by
        cases hp : pairMem pre r.meeting r.user
        · rfl
        · exact absurd (hcp hp) (by simp [hdb])
      have hstep : tryRecord pre db r = (false, db ++ [r]) :=
        tryRecord_fresh pre db r hpre hdb
      have hrest : runRace r (db ++ [r]) rest
          = (List.replicate rest.length true, db ++ [r]) :=
        runRace_after r (db ++ [r]) rest (pairMem_append_self db r)
      simp only [runRace, hstep, hrest]
      refine ⟨?_, rfl⟩
      rw [countPair_append_self db r, h0]

/-- Concrete fixture: an attendance record for meeting 1 and user 7. -/
def recC1 : AttendanceRec := ⟨1, 7, Method.qr, 0, none⟩

/-- Witness for C1: two concurrent submissions whose duplicate pre-checks
both read the empty snapshot still leave exactly one stored record; the
first reports fresh, the second already-recorded; and the unique-index
insert preserves the no-duplicates invariant. -/
theorem attendance_exactly_once_witness :
    countPair (runRace recC1 [] [[], []]).2 recC1.meeting recC1.user = 1 ∧
    (runRace recC1 [] [[], []]).1 = [false, true] ∧
    UniquePairs [recC1] :=
  have h := attendance_exactly_once.2 recC1 [] [[], []] rfl
    (by simp [Causal, pairMem]) (by simp)
  ⟨h.1, h.2, attendance_exactly_once.1 [] recC1 [recC1]
    List.Pairwise.nil rfl⟩

/-- Counterexample to C7: in a scheduler tick over two activatable dormant
meetings, a write failure on the first (id 11) aborts the whole tick's
loop — the second meeting (id 12), whose own write would succeed, is left
unprocessed and dormant, while the same tick with no failure activates
both.  Per-event failures are not isolated in the scheduler tick. -/
theorem scheduler_tick_abort_counterexample :
    checkAndUpdateMeetingsExc genC 0 (fun n => n == 11) [meetingC7a, meetingC7b]
      = [meetingC7a, meetingC7b] ∧
    meetingC7b.isActive = false ∧
    shouldActivate 0 meetingC7b = true ∧
    ((checkAndUpdateMeetingsExc genC 0 (fun _ => false)
        [meetingC7a, meetingC7b]).map (fun m => m.isActive)) = [true, true] := by
  exact ⟨rfl, rfl, by decide, rfl⟩

/-- C7 amended: in the rotation tick, per-event failures are caught
individually: every selected event still gets exactly its own outcome
(rotated if its own write succeeds, untouched if it fails), unaffected by
other events' failures, and the tick still completes and records the
shared instant.  In the scheduler tick, by contrast, a per-event failure
is caught only by the tick-wide handler: writes before the failure stay
applied but the failing event and all later ones in that tick's work list
are skipped; the absorbed abort flag means the tick itself still returns
normally to its caller, so the periodic loop fires again next tick. -/
theorem background_tick_failure_isolation :
    (∀ (g : RotGen) (bad : ℕ → Bool) (now : ℤ) (st : ServerState),
      (st.meetings.map Meeting.mid).Nodup →
      (refreshQRCodesExc g bad now st).meetings
        = st.meetings.map
            (fun m => if rotEligible m && !bad m.mid then rotated g m else m) ∧
      (refreshQRCodesExc g bad now st).lastRefreshedAt = some now) ∧
    (∀ (g : ActGen) (now : ℤ) (bad : ℕ → Bool) (pre ms : List Meeting)
       (m : Meeting) (rest : List Meeting),
      (∀ x ∈ pre, bad x.mid = false) →
      bad m.mid = true → now < endTime m →
      activateLoopExc g now bad ms (pre ++ m :: rest)
        = ((activateLoopExc g now bad ms pre).1, true)) := by
  constructor
  · intro g bad now st hnd
    refine ⟨?_, rfl⟩
    show (st.meetings.filter rotEligible).foldl
        (fun ms m => if bad m.mid then ms else applyUpdate ms (rotated g m))
        st.meetings
      = _
    rw [rotFold_eq_map g bad (st.meetings.filter rotEligible) st.meetings]
    apply List.map_congr_left
    intro x hx
    cases hE : rotEligible x with
    | false =>
      have hskip : ∀ t ∈ st.meetings.filter rotEligible, t.mid ≠ x.mid := by
        intro t ht he
        have htm := List.mem_of_mem_filter ht
        have : t = x := List.inj_on_of_nodup_map hnd htm hx he
        rw [this] at ht
        rw [List.mem_filter, hE] at ht
        exact Bool.false_ne_true ht.2
      rw [applyAllRot_skip g bad _ x hskip, Bool.false_and,
        if_neg Bool.false_ne_true]
    | true =>
      have hmem : x ∈ st.meetings.filter rotEligible :=
        List.mem_filter.mpr ⟨hx, hE⟩
      have hndf : ((st.meetings.filter rotEligible).map Meeting.mid).Nodup :=
        (List.Sublist.map Meeting.mid (List.filter_sublist st.meetings)).nodup hnd
      rw [applyAllRot_mem g bad _ x hmem hndf, Bool.true_and]
      cases hbad : bad x.mid with
      | true => rw [if_pos rfl, Bool.not_true, if_neg Bool.false_ne_true]
      | false =>
        rw [if_neg Bool.false_ne_true, Bool.not_false, if_pos rfl]
  · exact fun g now bad pre ms m rest hgood hbad hnow =>
      activateLoopExc_abort g now bad pre ms m rest hgood hbad hnow

/-- Witness for the amended C7: a rotation tick whose only eligible
meeting's own write fails still completes, records the instant, and
leaves that meeting untouched; and a scheduler loop whose first item's
write fails aborts with the abort flag set. -/
theorem background_tick_failure_isolation_witness :
    (refreshQRCodesExc ⟨fun _ => "n", fun _ => "w"⟩ (fun n => n == 2) 5
        ⟨[meetingC5b], none⟩).meetings
      = [meetingC5b].map
          (fun m => if rotEligible m && !(m.mid == 2) then
            rotated ⟨fun _ => "n", fun _ => "w"⟩ m else m) ∧
    (refreshQRCodesExc ⟨fun _ => "n", fun _ => "w"⟩ (fun n => n == 2) 5
        ⟨[meetingC5b], none⟩).lastRefreshedAt = some 5 ∧
    activateLoopExc genC 0 (fun n => n == 11) [meetingC7a, meetingC7b]
        ([] ++ meetingC7a :: [meetingC7b])
      = ((activateLoopExc genC 0 (fun n => n == 11) [meetingC7a, meetingC7b] []).1,
         true) :=
  ⟨(background_tick_failure_isolation.1 ⟨fun _ => "n", fun _ => "w"⟩
      (fun n => n == 2) 5 ⟨[meetingC5b], none⟩ (by decide)).1,
   (background_tick_failure_isolation.1 ⟨fun _ => "n", fun _ => "w"⟩
      (fun n => n == 2) 5 ⟨[meetingC5b], none⟩ (by decide)).2,
   background_tick_failure_isolation.2 genC 0 (fun n => n == 11) []
      [meetingC7a, meetingC7b] meetingC7a [meetingC7b]
      (by intro x hx; exact absurd hx (List.not_mem_nil x)) (by decide) (by decide)⟩

/-- C9: each validator invocation performs at most one store write: on
every error outcome and on the idempotent-repeat outcome the store —
meetings, users and attendance records — is returned unchanged, and on a
fresh success exactly one attendance record is appended while meetings
and users are untouched. -/
theorem validator_single_write :
    (∀ (s : Store) (now : ℤ) (token fuid : String) (lat lng acc : Option ℝ),
      (∀ e, (markAttendance s now token fuid lat lng acc).1 = MarkResult.err e →
        (markAttendance s now token fuid lat lng acc).2 = s) ∧
      ((markAttendance s now token fuid lat lng acc).1 = MarkResult.ok true →
        (markAttendance s now token fuid lat lng acc).2 = s) ∧
      ((markAttendance s now token fuid lat lng acc).1 = MarkResult.ok false →
        (markAttendance s now token fuid lat lng acc).2.meetings = s.meetings ∧
        (markAttendance s now token fuid lat lng acc).2.users = s.users ∧
        ∃ rec, (markAttendance s now token fuid lat lng acc).2.attendance
          = s.attendance ++ [rec])) ∧
    (∀ (s : Store) (now : ℤ) (input : QRInput) (fuid : String)
       (lat lng acc : Option ℝ),
      (∀ e, (scanQRAttendance s now input fuid lat lng acc).1 = MarkResult.err e →
        (scanQRAttendance s now input fuid lat lng acc).2 = s) ∧
      ((scanQRAttendance s now input fuid lat lng acc).1 = MarkResult.ok true →
        (scanQRAttendance s now input fuid lat lng acc).2 = s) ∧
      ((scanQRAttendance s now input fuid lat lng acc).1 = MarkResult.ok false →
        (scanQRAttendance s now input fuid lat lng acc).2.meetings = s.meetings ∧
        (scanQRAttendance s now input fuid lat lng acc).2.users = s.users ∧
        ∃ rec, (scanQRAttendance s now input fuid lat lng acc).2.attendance
          = s.attendance ++ [rec])) := by
  constructor
  · intro s now token fuid lat lng acc
    have H : (∃ e, markAttendance s now token fuid lat lng acc
          = (MarkResult.err e, s)) ∨
        markAttendance s now token fuid lat lng acc = (MarkResult.ok true, s) ∨
        (∃ rec, markAttendance s now token fuid lat lng acc
          = (MarkResult.ok false, { s with attendance := s.attendance ++ [rec] })) := by
      unfold markAttendance
      split
      · exact Or.inl ⟨_, rfl⟩
      split
      · exact Or.inl ⟨_, rfl⟩
      · exact markAfterResolve_outcomes s now _ fuid lat lng acc
    refine ⟨?_, ?_, ?_⟩
    · intro e he
      rcases H with ⟨e', h⟩ | h | ⟨rec, h⟩
      · rw [h]
      · rw [h]
      · rw [h] at he
        simp at he
    · intro ht
      rcases H with ⟨e', h⟩ | h | ⟨rec, h⟩
      · rw [h]
      · rw [h]
      · rw [h] at ht
        simp at ht
    · intro hf
      rcases H with ⟨e', h⟩ | h | ⟨rec, h⟩
      · rw [h] at hf
        simp at hf
      · rw [h] at hf
        simp at hf
      · rw [h]
        exact ⟨rfl, rfl, rec, rfl⟩
  · intro s now input fuid lat lng acc
    have H : (∃ e, scanQRAttendance s now input fuid lat lng acc
          = (MarkResult.err e, s)) ∨
        scanQRAttendance s now input fuid lat lng acc = (MarkResult.ok true, s) ∨
        (∃ rec, scanQRAttendance s now input fuid lat lng acc
          = (MarkResult.ok false, { s with attendance := s.attendance ++ [rec] })) := by
      unfold scanQRAttendance
      split
      · exact Or.inl ⟨_, rfl⟩
      · exact Or.inl ⟨_, rfl⟩
      split
      · exact Or.inl ⟨_, rfl⟩
      · exact Or.inl ⟨_, rfl⟩
      · split
        · exact Or.inl ⟨_, rfl⟩
        split
        · exact Or.inl ⟨_, rfl⟩
        · exact scanAfterResolve_outcomes s now _ _ fuid lat lng acc
    refine ⟨?_, ?_, ?_⟩
    · intro e he
      rcases H with ⟨e', h⟩ | h | ⟨rec, h⟩
      · rw [h]
      · rw [h]
      · rw [h] at he
        simp at he
    · intro ht
      rcases H with ⟨e', h⟩ | h | ⟨rec, h⟩
      · rw [h]
      · rw [h]
      · rw [h] at ht
        simp at ht
    · intro hf
      rcases H with ⟨e', h⟩ | h | ⟨rec, h⟩
      · rw [h] at hf
        simp at hf
      · rw [h] at hf
        simp at hf
      · rw [h]
        exact ⟨rfl, rfl, rec, rfl⟩

/-- Witness for C9: the failing fixtures' stores come back unchanged. -/
theorem validator_single_write_witness :
    (markAttendance sC5b 0 "L" "u" none none none).2 = sC5b ∧
    (scanQRAttendance sC5 0 (QRInput.fields (some 1) (some "t")) "u" none none none).2
      = sC5 :=
  ⟨(validator_single_write.1 sC5b 0 "L" "u" none none none).1
      ScanErr.badRequest rfl,
   (validator_single_write.2 sC5 0 (QRInput.fields (some 1) (some "t")) "u"
      none none none).1 ScanErr.expiredQR rfl⟩

/-- C2: once payload, resolution, freshness and channel checks pass, the
temporal check recomputes the window from the stored schedule (start `t0`,
duration `d` minutes, derived end `t0 + d`): `now < t0` fails with
`TooEarly`, `now ≥ t0 + d` fails with `MeetingEnded`, and
`t0 ≤ now < t0 + d` passes the temporal check — in both the QR and the
link validator.  The cached `isActive` flag plays no part: flipping it
changes neither validator's outcome. -/
theorem validator_temporal_window :
    (∀ (s : Store) (now : ℤ) (mid : ℕ) (tok fuid : String)
       (lat lng acc : Option ℝ) (m : Meeting) (d : ℕ),
      tok ≠ "" →
      s.meetings.find? (fun x => x.mid = mid) = some m →
      m.qrToken = some tok →
      m.mtype = MeetingType.offline →
      m.duration = some d → d ≠ 0 →
      ((now < m.dateTime →
        scanQRAttendance s now (QRInput.fields (some mid) (some tok)) fuid lat lng acc
          = (MarkResult.err ScanErr.tooEarly, s)) ∧
       (m.dateTime + (d : ℤ) * 60000 ≤ now →
        scanQRAttendance s now (QRInput.fields (some mid) (some tok)) fuid lat lng acc
          = (MarkResult.err ScanErr.meetingEnded, s)) ∧
       (m.dateTime ≤ now → now < m.dateTime + (d : ℤ) * 60000 →
        (scanQRAttendance s now (QRInput.fields (some mid) (some tok)) fuid lat lng acc).1
            ≠ MarkResult.err ScanErr.tooEarly ∧
        (scanQRAttendance s now (QRInput.fields (some mid) (some tok)) fuid lat lng acc).1
            ≠ MarkResult.err ScanErr.meetingEnded))) ∧
    (∀ (s : Store) (now : ℤ) (token fuid : String) (lat lng acc : Option ℝ)
       (m : Meeting) (d : ℕ),
      isBlank token = false →
      s.meetings.find? (fun x => x.attendanceToken = token) = some m →
      m.mtype = MeetingType.online →
      m.duration = some d → d ≠ 0 →
      ((now < m.dateTime →
        markAttendance s now token fuid lat lng acc
          = (MarkResult.err ScanErr.tooEarly, s)) ∧
       (m.dateTime + (d : ℤ) * 60000 ≤ now →
        markAttendance s now token fuid lat lng acc
          = (MarkResult.err ScanErr.meetingEnded, s)) ∧
       (m.dateTime ≤ now → now < m.dateTime + (d : ℤ) * 60000 →
        (markAttendance s now token fuid lat lng acc).1
            ≠ MarkResult.err ScanErr.tooEarly ∧
        (markAttendance s now token fuid lat lng acc).1
            ≠ MarkResult.err ScanErr.meetingEnded))) ∧
    (∀ (s : Store) (now : ℤ) (m : Meeting) (tok fuid : String)
       (lat lng acc : Option ℝ) (b : Bool),
      scanAfterResolve s now { m with isActive := b } tok fuid lat lng acc
        = scanAfterResolve s now m tok fuid lat lng acc) ∧
    (∀ (s : Store) (now : ℤ) (m : Meeting) (fuid : String)
       (lat lng acc : Option ℝ) (b : Bool),
      markAfterResolve s now { m with isActive := b } fuid lat lng acc
        = markAfterResolve s now m fuid lat lng acc) := by
  refine ⟨?_, ?_, fun _ _ _ _ _ _ _ _ _ => rfl, fun _ _ _ _ _ _ _ _ => rfl⟩
  · intro s now mid tok fuid lat lng acc m d hTok hFind hFresh hTy hd h0
    have hone : (1 : ℤ) ≤ (d : ℤ) := by exact_mod_cast Nat.one_le_iff_ne_zero.mpr h0
    refine ⟨?_, ?_, ?_⟩
    · intro hlt
      simp [scanQRAttendance, scanAfterResolve, hFind, hTok, hFresh, hTy, hlt]
    · intro hge
      have hnlt : ¬ now < m.dateTime := by nlinarith
      have hEnd : endTime m ≤ now := by rw [endTime_eq m d hd h0]; exact hge
      simp [scanQRAttendance, scanAfterResolve, hFind, hTok, hFresh, hTy, hnlt, hEnd]
    · intro hge hlt
      have hnlt : ¬ now < m.dateTime := not_lt.mpr hge
      have hnend : ¬ endTime m ≤ now := by
        rw [endTime_eq m d hd h0]; exact not_le.mpr hlt
      simp only [scanQRAttendance]
      rw [if_neg hTok, hFind]
      simp only [scanAfterResolve, hFresh, hTy, if_neg hnlt, if_neg hnend]
      norm_num
      rcases hU : s.users.find? (fun u => u.firebaseUid = fuid) with _ | u
      · simp [hU]
      · simp only [hU]
        split_ifs with hP
        · simp
        · rcases hG : geofenceCheck m.geofencing lat lng with _ | e
          · simp [hG]
          · rcases geofenceCheck_errors _ _ _ _ hG with h | ⟨dist, h⟩ <;>
              subst h <;> simp [hG]
  · intro s now token fuid lat lng acc m d hTok hFind hTy hd h0
    have hone : (1 : ℤ) ≤ (d : ℤ) := by exact_mod_cast Nat.one_le_iff_ne_zero.mpr h0
    refine ⟨?_, ?_, ?_⟩
    · intro hlt
      simp [markAttendance, markAfterResolve, hFind, hTok, hTy, hlt]
    · intro hge
      have hnlt : ¬ now < m.dateTime := by nlinarith
      have hEnd : endTime m ≤ now := by rw [endTime_eq m d hd h0]; exact hge
      simp [markAttendance, markAfterResolve, hFind, hTok, hTy, hnlt, hEnd]
    · intro hge hlt
      have hnlt : ¬ now < m.dateTime := not_lt.mpr hge
      have hnend : ¬ endTime m ≤ now := by
        rw [endTime_eq m d hd h0]; exact not_le.mpr hlt
      simp only [markAttendance]
      rw [if_neg (by simp [hTok]), hFind]
      simp only [markAfterResolve, hTy, if_neg hnlt, if_neg hnend]
      norm_num
      rcases hU : s.users.find? (fun u => u.firebaseUid = fuid) with _ | u
      · simp [hU]
      · simp only [hU]
        split_ifs with hP
        · simp
        · simp

/-- Witness for C2 at the offline fixture (start 0, duration 60 minutes):
`TooEarly` one millisecond before start, `MeetingEnded` exactly at the
end, accepted-by-the-temporal-check at start, and insensitivity to the
cached flag. -/
theorem validator_temporal_window_witness :
    scanQRAttendance sC5b (-1) (QRInput.fields (some 2) (some "tok")) "u" none none none
      = (MarkResult.err ScanErr.tooEarly, sC5b) ∧
    scanQRAttendance sC5b 3600000 (QRInput.fields (some 2) (some "tok")) "u" none none none
      = (MarkResult.err ScanErr.meetingEnded, sC5b) ∧
    (scanQRAttendance sC5b 0 (QRInput.fields (some 2) (some "tok")) "u" none none none).1
      ≠ MarkResult.err ScanErr.tooEarly ∧
    scanAfterResolve sC5b 0 { meetingC5b with isActive := false } "tok" "u" none none none
      = scanAfterResolve sC5b 0 meetingC5b "tok" "u" none none none :=
  ⟨(validator_temporal_window.1 sC5b (-1) 2 "tok" "u" none none none meetingC5b 60
      (by decide) rfl rfl rfl rfl (by decide)).1 (by decide),
   (validator_temporal_window.1 sC5b 3600000 2 "tok" "u" none none none meetingC5b 60
      (by decide) rfl rfl rfl rfl (by decide)).2.1 (by decide),
   ((validator_temporal_window.1 sC5b 0 2 "tok" "u" none none none meetingC5b 60
      (by decide) rfl rfl rfl rfl (by decide)).2.2 (by decide) (by decide)).1,
   validator_temporal_window.2.2.1 sC5b 0 meetingC5b "tok" "u" none none none false⟩

/-- The haversine distance from the origin coordinate to itself is 0. -/
lemma haversineDistance_self_zero : haversineDistance 0 0 0 0 = 0 := by
  unfold haversineDistance toRad atan2
  norm_num [Real.sqrt_one, Real.arctan_zero]

/-- C4: with every earlier check passed and geofencing enabled, a missing
location fails with `LocationRequired`; with a location present, the
haversine great-circle distance (Earth radius 6,371,000 m) from the fence
center decides the outcome: strictly beyond the radius fails with
`OutOfRange` carrying that computed distance, and at most the radius
(boundary included) passes the geofence check, proceeding to the
duplicate-check/commit tail. -/
theorem scan_geofence_boundary :
    ∀ (s : Store) (now : ℤ) (mid : ℕ) (tok fuid : String) (acc : Option ℝ)
      (m : Meeting) (u : User),
      tok ≠ "" →
      s.meetings.find? (fun x => x.mid = mid) = some m →
      m.qrToken = some tok →
      m.mtype = MeetingType.offline →
      ¬ now < m.dateTime →
      ¬ endTime m ≤ now →
      s.users.find? (fun x => x.firebaseUid = fuid) = some u →
      ¬(m.participation = Participation.selected ∧ u.uid ∉ m.participants) →
      m.geofencing.enabled = true →
      ((∀ (lng : Option ℝ) (acc2 : Option ℝ),
        scanQRAttendance s now (QRInput.fields (some mid) (some tok)) fuid none lng acc2
          = (MarkResult.err ScanErr.locationRequired, s)) ∧
       (∀ (lat : Option ℝ) (acc2 : Option ℝ),
        scanQRAttendance s now (QRInput.fields (some mid) (some tok)) fuid lat none acc2
          = (MarkResult.err ScanErr.locationRequired, s)) ∧
       (∀ (la ln : ℝ),
        (m.geofencing.radius <
            haversineDistance m.geofencing.center.lat m.geofencing.center.lng la ln →
          scanQRAttendance s now (QRInput.fields (some mid) (some tok)) fuid
              (some la) (some ln) acc
            = (MarkResult.err (ScanErr.outOfRange
                (haversineDistance m.geofencing.center.lat m.geofencing.center.lng la ln)),
               s)) ∧
        (haversineDistance m.geofencing.center.lat m.geofencing.center.lng la ln ≤
            m.geofencing.radius →
          scanQRAttendance s now (QRInput.fields (some mid) (some tok)) fuid
              (some la) (some ln) acc
            = (MarkResult.ok
                (tryRecord s.attendance s.attendance
                  ⟨m.mid, u.uid, Method.qr, now, some ⟨la, ln, acc⟩⟩).1,
               { s with attendance :=
                  (tryRecord s.attendance s.attendance
                    ⟨m.mid, u.uid, Method.qr, now, some ⟨la, ln, acc⟩⟩).2 })))) := by
  intro s now mid tok fuid acc m u hTok hFind hFresh hTy hT1 hT2 hU hP hEn
  refine ⟨?_, ?_, ?_⟩
  · intro lng acc2
    rw [scan_to_geofence s now mid tok fuid none lng acc2 m u
      hTok hFind hFresh hTy hT1 hT2 hU hP]
    have hg : geofenceCheck m.geofencing none lng = some ScanErr.locationRequired := by
      rcases lng with _ | ln <;> simp [geofenceCheck, hEn]
    rw [hg]
  · intro lat acc2
    rw [scan_to_geofence s now mid tok fuid lat none acc2 m u
      hTok hFind hFresh hTy hT1 hT2 hU hP]
    have hg : geofenceCheck m.geofencing lat none = some ScanErr.locationRequired := by
      rcases lat with _ | la <;> simp [geofenceCheck, hEn]
    rw [hg]
  · intro la ln
    constructor
    · intro hfar
      rw [scan_to_geofence s now mid tok fuid (some la) (some ln) acc m u
        hTok hFind hFresh hTy hT1 hT2 hU hP]
      have hg : geofenceCheck m.geofencing (some la) (some ln)
          = some (ScanErr.outOfRange
              (haversineDistance m.geofencing.center.lat m.geofencing.center.lng la ln)) := by
        simp [geofenceCheck, hEn, hfar]
      rw [hg]
    · intro hclose
      rw [scan_to_geofence s now mid tok fuid (some la) (some ln) acc m u
        hTok hFind hFresh hTy hT1 hT2 hU hP]
      have hg : geofenceCheck m.geofencing (some la) (some ln) = none := by
        simp [geofenceCheck, hEn, not_lt.mpr hclose]
      rw [hg]
      rfl

/-- Concrete fixture: a geofenced offline meeting centered at the origin
with a 200 m radius. -/
def meetingC4 : Meeting :=
  ⟨3, "m", MeetingType.offline, 0, some 60, "", "qr", some "tok", "",
   true, false, Participation.anyone, [], ⟨true, ⟨0, 0⟩, 200⟩⟩

/-- Concrete fixture: a registered user. -/
def userC4 : User := ⟨7, "u"⟩

/-- Concrete fixture: store with the geofenced meeting and the user. -/
def sC4 : Store := ⟨[meetingC4], [userC4], []⟩

/-- Witness for C4: at the geofenced fixture, a missing location is
rejected with `LocationRequired`, and a submission exactly at the fence
center (distance 0 ≤ radius) passes the geofence check and records
attendance. -/
theorem scan_geofence_boundary_witness :
    scanQRAttendance sC4 0 (QRInput.fields (some 3) (some "tok")) "u" none none none
      = (MarkResult.err ScanErr.locationRequired, sC4) ∧
    scanQRAttendance sC4 0 (QRInput.fields (some 3) (some "tok")) "u"
        (some 0) (some 0) none
      = (MarkResult.ok
          (tryRecord sC4.attendance sC4.attendance
            ⟨meetingC4.mid, userC4.uid, Method.qr, 0, some ⟨0, 0, none⟩⟩).1,
         { sC4 with attendance :=
            (tryRecord sC4.attendance sC4.attendance
              ⟨meetingC4.mid, userC4.uid, Method.qr, 0, some ⟨0, 0, none⟩⟩).2 }) :=
  ⟨(scan_geofence_boundary sC4 0 3 "tok" "u" none meetingC4 userC4
      (by decide) rfl rfl rfl (by decide) (by decide) rfl (by decide) rfl).1 none none,
   ((scan_geofence_boundary sC4 0 3 "tok" "u" none meetingC4 userC4
      (by decide) rfl rfl rfl (by decide) (by decide) rfl (by decide) rfl).2.2 0 0).2
     (by
      show haversineDistance 0 0 0 0 ≤ (200 : ℝ)
      rw [haversineDistance_self_zero]
      norm_num)⟩

/-- Concrete fixture: an offline meeting with rotation paused. -/
def meetingC8 : Meeting :=
  ⟨1, "m", MeetingType.offline, 0, some 60, "", "qr", some "tok", "",
   true, true, Participation.anyone, [], ⟨false, ⟨0, 0⟩, 200⟩⟩

/-- Concrete fixture: server state whose last rotation happened at 5000ms. -/
def stC8 : ServerState := ⟨[meetingC8], some 5000⟩

/-- Counterexample to C8: resuming (pause flag goes from `true` to
`false`) at instant 100000 leaves the shared last-rotated-at instant at
its old value 5000 instead of resetting it, so the rotation countdown
reads 0 rather than restarting at the full 20-second interval. -/
theorem toggleQRPause_no_reset_counterexample :
    ((toggleQRPause stC8 1).1.meetings.map (fun m => m.qrPaused)) = [false] ∧
    (toggleQRPause stC8 1).1.lastRefreshedAt = some 5000 ∧
    some (5000 : ℤ) ≠ some (100000 : ℤ) ∧
    getSecondsUntilNextRefresh (toggleQRPause stC8 1).1.lastRefreshedAt 100000 = 0 ∧
    getSecondsUntilNextRefresh (some 100000) 100000 = 20 := by
  refine ⟨rfl, rfl, by decide, ?_, ?_⟩
  · show getSecondsUntilNextRefresh (some 5000) 100000 = 0
    have h75 : ((100000 : ℚ) - (5000 : ℚ)) / 1000 = 95 := by norm_num
    simp only [getSecondsUntilNextRefresh]
    norm_num [h75]
    rw [show ((-75 : ℚ)) = ((-75 : ℤ) : ℚ) by norm_num, Int.ceil_intCast]
    decide
  · simp only [getSecondsUntilNextRefresh]
    norm_num

/-- C8 amended: the pause/resume toggle only flips the addressed event's
paused flag: it leaves the shared last-rotated-at instant untouched (no
countdown restart on resume — only a rotation tick records that instant),
modifies no other field of the event, and no other event. -/
theorem toggleQRPause_flips_only_pause :
    ∀ (st : ServerState) (mid : ℕ) (m : Meeting),
      st.meetings.find? (fun x => x.mid = mid) = some m →
      (toggleQRPause st mid).1.lastRefreshedAt = st.lastRefreshedAt ∧
      (toggleQRPause st mid).1.meetings =
        st.meetings.map
          (fun x => if x.mid = mid then { x with qrPaused := !x.qrPaused } else x) ∧
      (∀ x ∈ st.meetings, x.mid ≠ mid → x ∈ (toggleQRPause st mid).1.meetings) ∧
      (toggleQRPause st mid).2 = some (!m.qrPaused) ∧
      (∀ (g : RotGen) (now : ℤ) (s2 : ServerState),
        (refreshQRCodes g now s2).lastRefreshedAt = some now) := by
  intro st mid m hFind
  unfold toggleQRPause
  rw [hFind]
  refine ⟨rfl, rfl, ?_, rfl, fun _ _ _ => rfl⟩
  intro x hx hne
  have hfx : (if x.mid = mid then { x with qrPaused := !x.qrPaused } else x) = x :=
    if_neg hne
  simpa [hfx] using List.mem_map_of_mem
    (fun y => if y.mid = mid then { y with qrPaused := !y.qrPaused } else y) hx

/-- Witness for the amended C8 at the concrete paused store. -/
theorem toggleQRPause_flips_only_pause_witness :
    (toggleQRPause stC8 1).1.lastRefreshedAt = stC8.lastRefreshedAt ∧
    (toggleQRPause stC8 1).2 = some false :=
  ⟨(toggleQRPause_flips_only_pause stC8 1 meetingC8 rfl).1,
   (toggleQRPause_flips_only_pause stC8 1 meetingC8 rfl).2.2.2.1⟩

end GDG
